import Mathlib

/-!
Verification development for the message-archive access layer of the
`imessage-crm` repository.

The Python source under `src/` is shallowly embedded:

* `MessageReader.search_messages` (src/messaging/message_reader.py) — the
  relational store is modelled as a list of joined rows (`Row`); the page
  query and the count query become two row predicates built exactly as the
  two SQL `WHERE` clauses are built.  The SQLite built-ins that convert the
  store-native timestamp to a local calendar date (`datetime(...)`,
  `date(...)`) are external collaborators and are passed in as an
  environment `SqlEnv` of opaque conversion functions; every theorem is
  universally quantified over that environment.
* `MessageReader._extract_text_from_attributed_body` — the external
  `plistlib.loads` parser is modelled by handing the decoder the parse
  outcome (`Option Plist`, `none` = the library raised) alongside the raw
  bytes; the three fallback tiers are embedded byte-for-byte.
* `ThreadDetector` (src/ai/thread_detector.py) — message dictionaries
  become `Msg` records (`text : Option String` models a Python `None`
  text value; a missing key behaves exactly like the empty string under the
  source's `.get('text','')` accesses and is represented by `some ""`).
  Python exceptions that escape a function are modelled with `Except Unit`.

Python floats are modelled as exact rationals.  All rational arithmetic in
the embedding uses `mkRat`-based helpers (`qSub`, `qDiv`, `qAbs`, `qMul`)
that the kernel can evaluate; lemmas `qSub_eq`, `qDiv_eq`, `qAbs_eq`,
`qMul_eq` identify them with Mathlib's field operations.  `str.lower()`,
`str.isdigit()`, `\w` and `str.isalpha()` are modelled over ASCII, which
covers every concrete input used here.  `datetime.fromisoformat` (Python
standard library, not repository code) is modelled by `parseIso` on the
common `YYYY-MM-DD[ T]HH:MM[:SS]` shapes it accepts, failing on everything
else; `sorted(..., key=...)` (stable) is modelled by Mathlib's (stable)
`List.insertionSort`.
-/

/-- Kernel-computable rational from an integer. -/
def qOfInt (i : ℤ) : ℚ := mkRat i 1

/-- Kernel-computable rational subtraction (see `qSub_eq`). -/
def qSub (a b : ℚ) : ℚ := mkRat (a.num * (b.den : ℤ) - b.num * (a.den : ℤ)) (a.den * b.den)

/-- Kernel-computable rational multiplication (see `qMul_eq`). -/
def qMul (a b : ℚ) : ℚ := mkRat (a.num * b.num) (a.den * b.den)

/-- Kernel-computable rational division (see `qDiv_eq`).  Division by zero
yields 0, matching Mathlib's convention; the embedded code only divides by
values it has checked to be nonzero (or by positive constants). -/
def qDiv (a b : ℚ) : ℚ :=
  if 0 ≤ b.num then mkRat (a.num * (b.den : ℤ)) (a.den * b.num.natAbs)
  else mkRat (-(a.num * (b.den : ℤ))) (a.den * b.num.natAbs)

/-- Kernel-computable absolute value on ℚ (see `qAbs_eq`). -/
def qAbs (a : ℚ) : ℚ := if a.num < 0 then mkRat (-a.num) a.den else a

/-- Boolean comparison ≤ on ℚ. -/
def qLe (a b : ℚ) : Bool := decide (a ≤ b)

/-- Boolean comparison < on ℚ. -/
def qLt (a b : ℚ) : Bool := decide (a < b)

/-- ASCII lower-casing of one character (models `str.lower()` on ASCII). -/
def asciiLowerChar (c : Char) : Char :=
  if 65 ≤ c.toNat ∧ c.toNat ≤ 90 then Char.ofNat (c.toNat + 32) else c

/-- ASCII lower-casing of a string. -/
def asciiLower (s : String) : String := String.mk (s.data.map asciiLowerChar)

/-- The whitespace characters of Python's `str.strip` / `str.split` /
`str.isspace`, restricted to ASCII. -/
def pyIsSpace (c : Char) : Bool :=
  c == ' ' || c == '\t' || c == '\n' || c == '\r' || c == '\x0b' || c == '\x0c'

/-- Python `str.strip()` on a character list. -/
def pyStripL (cs : List Char) : List Char :=
  ((cs.dropWhile pyIsSpace).reverse.dropWhile pyIsSpace).reverse

/-- Python `str.strip()`. -/
def pyStrip (s : String) : String := String.mk (pyStripL s.data)

/-- Maximal runs of characters satisfying `keep`, in order.  The second
argument is the (reversed) run being accumulated. -/
def runsBy (keep : Char → Bool) : List Char → List Char → List (List Char)
  | [], cur => if cur.isEmpty then [] else [cur.reverse]
  | c :: cs, cur =>
    if keep c then runsBy keep cs (c :: cur)
    else if cur.isEmpty then runsBy keep cs [] else cur.reverse :: runsBy keep cs []

/-- Python `str.split()` (split on whitespace runs, dropping empties). -/
def pySplitWs (s : String) : List String :=
  (runsBy (fun c => !pyIsSpace c) s.data []).map String.mk

/-- A `\w` word character (ASCII model of Python's regex `\w`). -/
def isWordChar (c : Char) : Bool := c.isAlphanum || c == '_'

/-- Python `re.findall(r'\b\w+\b', s)`: the maximal runs of word characters. -/
def pyFindWords (s : String) : List String :=
  (runsBy isWordChar s.data []).map String.mk

/-- Substring prefix test over the underlying character lists (Python
`str.startswith`). -/
def strStartsWith (s p : String) : Bool := p.data.isPrefixOf s.data

/-- Substring containment test (Python `needle in hay`). -/
def strContainsSub : List Char → List Char → Bool
  | [], needle => needle.isEmpty
  | c :: cs, needle => needle.isPrefixOf (c :: cs) || strContainsSub cs needle

/-- Python `needle in hay` for strings. -/
def strHasSub (hay needle : String) : Bool := strContainsSub hay.data needle.data

/-- Python `ch in s` for a single character. -/
def strHasChar (s : String) (c : Char) : Bool := s.data.contains c

/-- Python string `<` (lexicographic by code point) on character lists. -/
def strLtL : List Char → List Char → Bool
  | [], [] => false
  | [], _ :: _ => true
  | _ :: _, [] => false
  | a :: as, b :: bs => if a.toNat < b.toNat then true else if b.toNat < a.toNat then false else strLtL as bs

/-- Python string `<=`. -/
def strLeB (a b : String) : Bool := !(strLtL b.data a.data)

/-- Python `' '.join(l)` (on elements already known to be strings). -/
def joinSpace : List String → String
  | [] => ""
  | [x] => x
  | x :: xs => x ++ " " ++ joinSpace xs

/-- Python `max(l, key=key)`, first maximum on ties: the running best is
replaced only by a strictly larger key. -/
def pyMaxByGo (key : String → ℕ) (best : String) : List String → String
  | [] => best
  | y :: ys => if key best < key y then pyMaxByGo key y ys else pyMaxByGo key best ys

/-- Python `max(l, key=key)` for a possibly-empty list. -/
def pyMaxBy (key : String → ℕ) : List String → Option String
  | [] => none
  | x :: xs => some (pyMaxByGo key x xs)

/-- Python `l[-n:]`. -/
def lastN {α : Type} (n : ℕ) (l : List α) : List α := l.drop (l.length - n)

/-- Value of an ASCII digit character. -/
def digVal (c : Char) : Option ℕ :=
  if 48 ≤ c.toNat ∧ c.toNat ≤ 57 then some (c.toNat - 48) else none

/-- Two-digit number. -/
def dig2 (a b : Char) : Option ℕ := do
  let x ← digVal a
  let y ← digVal b
  pure (10 * x + y)

/-- Four-digit number. -/
def dig4 (a b c d : Char) : Option ℕ := do
  let x ← dig2 a b
  let y ← dig2 c d
  pure (100 * x + y)

/-- Gregorian leap year. -/
def isLeapYear (y : ℕ) : Bool := (y % 4 == 0 && y % 100 != 0) || y % 400 == 0

/-- Days in a month of the proleptic Gregorian calendar. -/
def daysInMonth (y m : ℕ) : ℕ :=
  if m = 2 then (if isLeapYear y then 29 else 28)
  else if m = 4 ∨ m = 6 ∨ m = 9 ∨ m = 11 then 30
  else 31

/-- Days since 1970-01-01 of a civil date (standard days-from-civil
algorithm, floor divisions throughout). -/
def daysFromCivil (y m d : ℕ) : ℤ :=
  let yi : ℤ := if m ≤ 2 then (y : ℤ) - 1 else (y : ℤ)
  let era : ℤ := Int.fdiv yi 400
  let yoe : ℤ := yi - era * 400
  let mp : ℤ := ((m : ℤ) + 9) % 12
  let doy : ℤ := Int.fdiv (153 * mp + 2) 5 + (d : ℤ) - 1
  let doe : ℤ := yoe * 365 + Int.fdiv yoe 4 - Int.fdiv yoe 100 + doy
  era * 146097 + doe - 719468

/-- Model of `datetime.fromisoformat` (Python standard library, external to
the repository): accepts `YYYY-MM-DD`, optionally followed by a `T` or
space separator and `HH:MM` or `HH:MM:SS`, validating calendar ranges, and
yields seconds since the 1970 epoch (naive, no timezone).  Fractional
seconds and timezone offsets are out of the modelled subset; every date
string used concretely in this file is inside it. -/
def parseIso (s : String) : Option ℤ :=
  match s.data with
  | y1 :: y2 :: y3 :: y4 :: '-' :: m1 :: m2 :: '-' :: d1 :: d2 :: rest => do
    let y ← dig4 y1 y2 y3 y4
    let mo ← dig2 m1 m2
    let dy ← dig2 d1 d2
    let hms ←
      match rest with
      | [] => some (0, 0, 0)
      | sep :: h1 :: h2 :: ':' :: n1 :: n2 :: rest2 =>
        if sep = 'T' ∨ sep = ' ' then do
          let h ← dig2 h1 h2
          let mi ← dig2 n1 n2
          match rest2 with
          | [] => some (h, mi, 0)
          | ':' :: s1 :: s2 :: [] => do
            let sec ← dig2 s1 s2
            pure (h, mi, sec)
          | _ => none
        else none
      | _ => none
    if 1 ≤ y ∧ 1 ≤ mo ∧ mo ≤ 12 ∧ 1 ≤ dy ∧ dy ≤ daysInMonth y mo ∧
        hms.1 ≤ 23 ∧ hms.2.1 ≤ 59 ∧ hms.2.2 ≤ 59 then
      some (daysFromCivil y mo dy * 86400 + (hms.1 : ℤ) * 3600 + (hms.2.1 : ℤ) * 60 + (hms.2.2 : ℤ))
    else none
  | _ => none

/-- A message dictionary as consumed by `ThreadDetector` (fields `date`,
`text`, `is_from_me`).  `text = none` models a Python `None` value under
the `'text'` key; a missing key behaves as `some ""` in every access the
detector makes (`.get('text','')`). -/
structure Msg where
  date : String
  text : Option String
  is_from_me : Bool
deriving DecidableEq, Inhabited

/-- The `ThreadDetector` configuration (constructor defaults
`time_gap_hours=4`, `similarity_threshold=0.3`). -/
structure ThreadDetector where
  time_gap_hours : ℚ := mkRat 4 1
  similarity_threshold : ℚ := mkRat 3 10
deriving DecidableEq, Inhabited

/-- `ThreadDetector._calculate_time_gap`: absolute gap in hours between the
two messages' parsed timestamps; `none` models the `float('inf')` returned
when `fromisoformat` raises on either date. -/
def calculateTimeGap (msg1 msg2 : Msg) : Option ℚ :=
  match parseIso msg1.date, parseIso msg2.date with
  | some a, some b => some (qAbs (qDiv (qSub (qOfInt b) (qOfInt a)) (mkRat 3600 1)))
  | _, _ => none

/-- Comparison `gap > t` where `none` is `float('inf')` (exceeds every
threshold). -/
def gapGt : Option ℚ → ℚ → Bool
  | none, _ => true
  | some g, t => qLt t g

/-- Word-set accumulation over the thread's recent messages
(`thread_words.update(re.findall(...))` in `_calculate_content_similarity`).
A message whose `'text'` value is `None` raises `AttributeError` on
`.lower()`, modelled by `Except.error`. -/
def threadWordsGo : List Msg → Finset String → Except Unit (Finset String)
  | [], acc => .ok acc
  | m :: ms, acc =>
    match m.text with
    | none => .error ()
    | some t => threadWordsGo ms (acc ∪ (pyFindWords (asciiLower t)).toFinset)

/-- `ThreadDetector._calculate_content_similarity`: Jaccard similarity of
the message's word set against the union of the last five buffered
messages' word sets.  Python sets become `Finset String`; `len` becomes
`Finset.card`. -/
def calculateContentSimilarity (message : Msg) (thread : List Msg) : Except Unit ℚ :=
  match message.text with
  | none => .ok 0
  | some t =>
    if t = "" then .ok 0
    else
      let mw : Finset String := (pyFindWords (asciiLower t)).toFinset
      match threadWordsGo (lastN 5 thread) ∅ with
      | .error e => .error e
      | .ok tw =>
        if tw = ∅ then .ok 0
        else
          let i := (mw ∩ tw).card
          let u := (mw ∪ tw).card
          .ok (if 0 < u then qDiv (mkRat i 1) (mkRat u 1) else 0)

/-- `ThreadDetector._belongs_to_thread`. -/
def belongsToThread (td : ThreadDetector) (message : Msg) (thread : List Msg) : Except Unit Bool :=
  if thread.isEmpty then .ok false
  else
    let tg := calculateTimeGap (thread.getLastD default) message
    if gapGt tg td.time_gap_hours then .ok false
    else if gapGt tg (qDiv td.time_gap_hours (mkRat 2 1)) then
      match calculateContentSimilarity message thread with
      | .error e => .error e
      | .ok s => .ok (qLe td.similarity_threshold s)
    else .ok true

/-- A thread object as built by `_create_thread_object`. -/
structure Thread where
  thread_id : ℕ
  messages : List Msg
  start_time : String
  end_time : String
  duration_minutes : ℚ
  message_count : ℕ
  participants : List String
  topic_summary : String
deriving DecidableEq, Inhabited

/-- Python `round(x, 1)` (round half to even), on exact rationals. -/
def pyRound1 (x : ℚ) : ℚ :=
  let y := qMul x (mkRat 10 1)
  let n := Rat.floor y
  let fr := qSub y (qOfInt n)
  if qLt fr (mkRat 1 2) then qDiv (qOfInt n) (mkRat 10 1)
  else if qLt (mkRat 1 2) fr then qDiv (qOfInt (n + 1)) (mkRat 10 1)
  else qDiv (qOfInt (if n % 2 = 0 then n else n + 1)) (mkRat 10 1)

/-- First message whose (truthy) text strips to more than 10 characters,
truncated to 100 characters with an ellipsis when longer. -/
def topicSummary : List Msg → String
  | [] => "No content"
  | m :: ms =>
    match m.text with
    | none => topicSummary ms
    | some t =>
      if t = "" then topicSummary ms
      else
        let t2 := pyStrip t
        if 10 < t2.length then
          String.mk (t2.data.take 100) ++ (if 100 < t2.length then "..." else "")
        else topicSummary ms

/-- `ThreadDetector._create_thread_object`.  On an empty message list the
Python function returns an empty dict; that case is unreachable from
`detectThreads` and is modelled by the default `Thread`.  The `participants`
Python set has unspecified iteration order; it is modelled in the canonical
order `["Me", "Contact"]`. -/
def createThreadObject (messages : List Msg) (tid : ℕ) : Thread :=
  match messages with
  | [] => default
  | m0 :: _ =>
    let st := m0.date
    let en := (messages.getLastD default).date
    let dur : ℚ :=
      match parseIso st, parseIso en with
      | some a, some b => qDiv (qSub (qOfInt b) (qOfInt a)) (mkRat 60 1)
      | _, _ => 0
    { thread_id := tid
      messages := messages
      start_time := st
      end_time := en
      duration_minutes := pyRound1 dur
      message_count := messages.length
      participants :=
        (if messages.any (·.is_from_me) then ["Me"] else []) ++
        (if messages.any (fun m => !m.is_from_me) then ["Contact"] else [])
      topic_summary := topicSummary messages }

/-- Date-ascending order on messages (Python compares the `'date'` strings
lexicographically by code point). -/
def msgDateLe (a b : Msg) : Prop := strLeB a.date b.date = true

instance msgDateLeDec : DecidableRel msgDateLe := fun _ _ => instDecidableEqBool _ _

/-- Python's stable `sorted(messages, key=lambda m: m.get('date',''))`. -/
def pySortedByDate (messages : List Msg) : List Msg := List.insertionSort msgDateLe messages

/-- The loop of `ThreadDetector.detect_threads`: `pending` is the sorted
input not yet consumed, `current` the open buffer, `tid` the next thread id
and `acc` the emitted threads. -/
def detectGo (td : ThreadDetector) : List Msg → List Msg → ℕ → List Thread → Except Unit (List Thread)
  | [], current, tid, acc =>
    .ok (acc ++ if current.isEmpty then [] else [createThreadObject current tid])
  | m :: rest, current, tid, acc =>
    if current.isEmpty then detectGo td rest [m] tid acc
    else
      match belongsToThread td m current with
      | .error e => .error e
      | .ok true => detectGo td rest (current ++ [m]) tid acc
      | .ok false => detectGo td rest [m] (tid + 1) (acc ++ [createThreadObject current tid])

/-- `ThreadDetector.detect_threads`.  `Except.error` models an uncaught
Python exception escaping the call. -/
def detectThreads (td : ThreadDetector) (messages : List Msg) : Except Unit (List Thread) :=
  if messages.isEmpty then .ok []
  else detectGo td (pySortedByDate messages) [] 0 []

/-- The stopword set removed by `_are_threads_related`. -/
def stopWords : Finset String :=
  (["the", "a", "an", "and", "or", "but", "in", "on", "at", "to", "for",
    "i", "you", "we", "they", "it", "is", "are", "was", "were", "been",
    "have", "has", "had", "do", "does", "did", "will", "would", "could",
    "should", "may", "might", "can", "this", "that", "these", "those"] : List String).toFinset

/-- The texts of the given messages, in order; a `None` text makes Python's
`' '.join` raise `TypeError` (uncaught there), modelled by `Except.error`. -/
def collectTexts : List Msg → Except Unit (List String)
  | [] => .ok []
  | m :: ms =>
    match m.text with
    | none => .error ()
    | some t =>
      match collectTexts ms with
      | .error e => .error e
      | .ok r => .ok (t :: r)

/-- `ThreadDetector._are_threads_related`.  `timedelta.days` is the floor of
the difference in whole days (`Int.fdiv`); a `fromisoformat` failure is
caught by the source's bare `except` and yields `False`. -/
def areThreadsRelated (t1 t2 : Thread) (maxDays : ℤ) : Except Unit Bool :=
  match parseIso t1.end_time, parseIso t2.start_time with
  | some e1, some s2 =>
    let daysApart := |Int.fdiv (s2 - e1) 86400|
    if maxDays < daysApart then .ok false
    else
      match collectTexts (lastN 3 t1.messages) with
      | .error e => .error e
      | .ok ts1 =>
        match collectTexts (t2.messages.take 3) with
        | .error e => .error e
        | .ok ts2 =>
          let w1 := (pyFindWords (asciiLower (joinSpace ts1))).toFinset \ stopWords
          let w2 := (pyFindWords (asciiLower (joinSpace ts2))).toFinset \ stopWords
          if w1 = ∅ ∨ w2 = ∅ then .ok false
          else .ok (qLe (mkRat 3 10) (qDiv (mkRat ((w1 ∩ w2).card) 1) (mkRat (min w1.card w2.card) 1)))
  | _, _ => .ok false

/-- Inner loop of `find_related_threads`: scan the candidate indices `js`,
growing `group` and `processed`. -/
def frInner (threads : List Thread) (maxDays : ℤ) (anchor : Thread) :
    List ℕ → List ℕ → List ℕ → Except Unit (List ℕ × List ℕ)
  | [], group, processed => .ok (group, processed)
  | j :: js, group, processed =>
    if j ∈ processed then frInner threads maxDays anchor js group processed
    else
      match areThreadsRelated anchor (threads.getD j default) maxDays with
      | .error e => .error e
      | .ok true => frInner threads maxDays anchor js (group ++ [j]) (processed ++ [j])
      | .ok false => frInner threads maxDays anchor js group processed

/-- Outer loop of `find_related_threads` over the anchor indices. -/
def frOuter (threads : List Thread) (maxDays : ℤ) :
    List ℕ → List ℕ → List (List ℕ) → Except Unit (List (List ℕ))
  | [], _, acc => .ok acc
  | i :: rest, processed, acc =>
    if i ∈ processed then frOuter threads maxDays rest processed acc
    else
      match frInner threads maxDays (threads.getD i default)
          (List.range' (i + 1) (threads.length - (i + 1))) [i] (processed ++ [i]) with
      | .error e => .error e
      | .ok r =>
        if 1 < r.1.length then frOuter threads maxDays rest r.2 (acc ++ [r.1])
        else frOuter threads maxDays rest r.2 acc

/-- `ThreadDetector.find_related_threads` (default `max_days_apart=7`). -/
def findRelatedThreads (threads : List Thread) (maxDays : ℤ) : Except Unit (List (List ℕ)) :=
  frOuter threads maxDays (List.range threads.length) [] []

/-- The specification's Jaccard similarity of two word sets, `|A∩B| / |A∪B|`
(0 when both sets are empty, the 0/0 convention of ℚ). -/
def jaccardSimilarity (A B : Finset String) : ℚ :=
  qDiv (mkRat ((A ∩ B).card) 1) (mkRat ((A ∪ B).card) 1)

/-- The lowercase word set of one message (empty for a `None` text). -/
def msgWordSet (m : Msg) : Finset String :=
  match m.text with
  | none => ∅
  | some t => (pyFindWords (asciiLower t)).toFinset

/-- Union of the word sets of a list of messages. -/
def bufWordSet : List Msg → Finset String
  | [] => ∅
  | m :: ms => msgWordSet m ∪ bufWordSet ms

/-- A parsed property-list value, the data model of the external
`plistlib.loads` result consumed by `_extract_text_from_attributed_body`.
Python `bool` is an `int` subtype, so `bool` values get their own
constructor and compare as 0/1 where the source compares numbers. -/
inductive Plist where
  | str : String → Plist
  | int : ℤ → Plist
  | bool : Bool → Plist
  | bytes : List ℕ → Plist
  | arr : List Plist → Plist
  | dict : List (String × Plist) → Plist
deriving Inhabited

/-- Lookup in a parsed plist dictionary (keys are unique in a Python dict;
first match). -/
def plLookup : List (String × Plist) → String → Option Plist
  | [], _ => none
  | (k2, v) :: rest, k => if k2 = k then some v else plLookup rest k

/-- Python `key in dict`. -/
def plHasKey (entries : List (String × Plist)) (k : String) : Bool :=
  (plLookup entries k).isSome

/-- Python iteration over an arbitrary object (`for obj in objects`): lists
iterate elements, strings iterate one-character strings, dicts iterate
keys, bytes iterate ints; iterating an int or bool raises `TypeError`. -/
def iterElems : Plist → Except Unit (List Plist)
  | .arr l => .ok l
  | .str s => .ok (s.data.map (fun c => .str (String.mk [c])))
  | .dict es => .ok (es.map (fun e => .str e.1))
  | .bytes bs => .ok (bs.map (fun b => .int (b : ℤ)))
  | .int _ => .error ()
  | .bool _ => .error ()

/-- The integer value of a `CF$UID` entry as used in `string_index <
len(objects)`: ints and bools compare as numbers, anything else raises
`TypeError` on the comparison. -/
def uidVal : Plist → Except Unit ℤ
  | .int i => .ok i
  | .bool b => .ok (if b then 1 else 0)
  | _ => .error ()

/-- Python list indexing `objects[i]` with negative-index wrap-around;
an index out of `[-len, len)` raises `IndexError`.  Only called under the
source's `string_index < len(objects)` guard. -/
def pyListGet (objs : List Plist) (i : ℤ) : Except Unit Plist :=
  if 0 ≤ i then .ok (objs.getD i.toNat default)
  else if 0 ≤ i + objs.length then .ok (objs.getD (i + objs.length).toNat default)
  else .error ()

/-- The per-object body of the first scan loop of the structured tier: the
`'$class' in obj and 'NS.string' in obj` check with `CF$UID` resolution,
then (when that did not return) the direct `'NS.string' in obj` check. -/
def scanObj (objs : List Plist) (obj : Plist) : Except Unit (Option String) :=
  match obj with
  | .dict d =>
    let uidStep : Except Unit (Option String) :=
      if plHasKey d "$class" && plHasKey d "NS.string" then
        match plLookup d "NS.string" with
        | some (.dict d2) =>
          if plHasKey d2 "CF$UID" then
            match plLookup d2 "CF$UID" with
            | some uv =>
              match uidVal uv with
              | .error e => .error e
              | .ok i =>
                if i < (objs.length : ℤ) then
                  match pyListGet objs i with
                  | .error e => .error e
                  | .ok (.str t) =>
                    .ok (if 0 < (pyStrip t).length then some (pyStrip t) else none)
                  | .ok _ => .ok none
                else .ok none
            | none => .ok none
          else .ok none
        | _ => .ok none
      else .ok none
    match uidStep with
    | .error e => .error e
    | .ok (some s) => .ok (some s)
    | .ok none =>
      match plLookup d "NS.string" with
      | some (.str c) => .ok (if 0 < (pyStrip c).length then some (pyStrip c) else none)
      | _ => .ok none
  | _ => .ok none

/-- The first scan loop of the structured tier over the `$objects` array. -/
def tier1Scan (objs : List Plist) : List Plist → Except Unit (Option String)
  | [] => .ok none
  | obj :: rest =>
    match scanObj objs obj with
    | .error e => .error e
    | .ok (some s) => .ok (some s)
    | .ok none => tier1Scan objs rest

/-- The loose-string scan of the structured tier: strings longer than 2
after stripping that are not archiver scaffolding. -/
def looseStrings (objs : List Plist) : List String :=
  objs.filterMap fun obj =>
    match obj with
    | .str s =>
      if 2 < (pyStrip s).length &&
          !strStartsWith s "NS" && !strStartsWith s "__" && !strStartsWith s "CF" &&
          !(s == "X$versionY$archiverT$topX$objects" || s == "streamtyped") &&
          !strHasChar s '$' &&
          !strHasSub s "AttributeName" && !strHasSub s "NSColor" && !strHasSub s "NSFont"
      then some (pyStrip s) else none
    | _ => none

/-- The structured tier of `_extract_text_from_attributed_body` given a
successfully parsed plist: the `$objects` scan, then the longest loose
string.  `Except.error` models an exception inside the `try` block (caught
by the caller, which then falls through to the next tier). -/
def tier1 (p : Plist) : Except Unit (Option String) :=
  match p with
  | .dict es =>
    match plLookup es "$objects" with
    | none => .ok none
    | some ov =>
      match iterElems ov with
      | .error e => .error e
      | .ok objs =>
        match tier1Scan objs objs with
        | .error e => .error e
        | .ok (some s) => .ok (some s)
        | .ok none => .ok (pyMaxBy String.length (looseStrings objs))
  | _ => .ok none

/-- The Unicode replacement character emitted by lossy UTF-8 decoding. -/
def replChar : Char := Char.ofNat 0xFFFD

/-- Valid UTF-8 continuation byte. -/
def utf8Cont (b : ℕ) : Bool := 128 ≤ b && b ≤ 191

/-- Valid second byte for a three-byte sequence headed by `b1`. -/
def utf8Cont2 (b1 b2 : ℕ) : Bool :=
  if b1 = 224 then 160 ≤ b2 && b2 ≤ 191
  else if b1 = 237 then 128 ≤ b2 && b2 ≤ 159
  else utf8Cont b2

/-- Valid second byte for a four-byte sequence headed by `b1`. -/
def utf8Cont3 (b1 b2 : ℕ) : Bool :=
  if b1 = 240 then 144 ≤ b2 && b2 ≤ 191
  else if b1 = 244 then 128 ≤ b2 && b2 ≤ 143
  else utf8Cont b2

/-- Worker for `utf8Lossy`.  The first argument is fuel (at least the list
length, so the zero-fuel case is unreachable); recursion is structural on
the fuel so that the kernel can evaluate concrete payloads. -/
def utf8LossyGo : ℕ → List ℕ → List Char
  | 0, _ => []
  | _ + 1, [] => []
  | fuel + 1, b1 :: r1 =>
    if b1 < 128 then Char.ofNat b1 :: utf8LossyGo fuel r1
    else if 194 ≤ b1 ∧ b1 ≤ 223 then
      match r1 with
      | [] => [replChar]
      | b2 :: r2 =>
        if utf8Cont b2 then Char.ofNat ((b1 - 192) * 64 + (b2 - 128)) :: utf8LossyGo fuel r2
        else replChar :: utf8LossyGo fuel r1
    else if 224 ≤ b1 ∧ b1 ≤ 239 then
      match r1 with
      | [] => [replChar]
      | b2 :: r2 =>
        if utf8Cont2 b1 b2 then
          match r2 with
          | [] => [replChar]
          | b3 :: r3 =>
            if utf8Cont b3 then
              Char.ofNat ((b1 - 224) * 4096 + (b2 - 128) * 64 + (b3 - 128)) :: utf8LossyGo fuel r3
            else replChar :: utf8LossyGo fuel r2
        else replChar :: utf8LossyGo fuel r1
    else if 240 ≤ b1 ∧ b1 ≤ 244 then
      match r1 with
      | [] => [replChar]
      | b2 :: r2 =>
        if utf8Cont3 b1 b2 then
          match r2 with
          | [] => [replChar]
          | b3 :: r3 =>
            if utf8Cont b3 then
              match r3 with
              | [] => [replChar]
              | b4 :: r4 =>
                if utf8Cont b4 then
                  Char.ofNat ((b1 - 240) * 262144 + (b2 - 128) * 4096 + (b3 - 128) * 64 + (b4 - 128))
                    :: utf8LossyGo fuel r4
                else replChar :: utf8LossyGo fuel r3
            else replChar :: utf8LossyGo fuel r2
        else replChar :: utf8LossyGo fuel r1
    else replChar :: utf8LossyGo fuel r1

/-- Model of Python `bytes.decode('utf-8', errors='replace')`: valid
sequences decode, each invalid lead (or truncated tail) contributes a
replacement character.  On ASCII input — all that the concrete payloads in
this file use — this is exact. -/
def utf8Lossy (data : List ℕ) : List Char := utf8LossyGo data.length data

/-- A character matched by the fallback pattern `[^\x00-\x1f\x7f-\x9f]`. -/
def isRunChar (c : Char) : Bool := !(c.toNat ≤ 31 || (127 ≤ c.toNat && c.toNat ≤ 159))

/-- A token starts with one of the spec's forbidden framework prefixes
(the tuple of Python's `startswith(('NS', '__', 'CF', '$'))`). -/
def forbiddenStartB (w : String) : Bool :=
  strStartsWith w "NS" || strStartsWith w "__" || strStartsWith w "CF" || strStartsWith w "$"

/-- The message candidates of the text-scan fallback tier: printable runs
of length at least 3 from the lossily decoded bytes, stripped, filtered
against scaffolding and required to be mostly alphanumeric. -/
def tier2Cands (data : List ℕ) : List String :=
  ((runsBy isRunChar (utf8Lossy data) []).filter (fun r => 3 ≤ r.length)).filterMap fun seq =>
    let cleaned := pyStrip (String.mk seq)
    if 2 < cleaned.length &&
        !strStartsWith cleaned "NS" && !strStartsWith cleaned "__" &&
        !strStartsWith cleaned "CF" && !strStartsWith cleaned "$" &&
        !strHasSub (asciiLower cleaned) "streamtyped" &&
        !strHasSub (asciiLower cleaned) "archiver" &&
        !strHasSub (asciiLower cleaned) "attributed" &&
        !strHasSub cleaned "X$version" &&
        !strHasSub cleaned "$objects" &&
        !strHasSub cleaned "$class" then
      if cleaned.data.any Char.isAlpha &&
          7 * cleaned.length < 10 * (cleaned.data.filter (fun c => c.isAlphanum || pyIsSpace c)).length then
        some cleaned
      else none
    else none

/-- The text-scan fallback tier: the candidate maximizing length plus a
bonus of 10 for containing a space. -/
def tier2 (data : List ℕ) : Option String :=
  pyMaxBy (fun x => x.length + (if strHasChar x ' ' then 10 else 0)) (tier2Cands data)

/-- The words of the ASCII-scrub last-resort tier: map printable ASCII
bytes to characters and the rest to spaces, split on whitespace, keep the
(stripped) words longer than 2. -/
def tier3Words (data : List ℕ) : List String :=
  (runsBy (fun c => !pyIsSpace c)
      (data.map (fun b => if 32 ≤ b ∧ b < 127 then Char.ofNat b else ' ')) []).filterMap fun w =>
    let w2 := pyStrip (String.mk w)
    if 2 < w2.length then some w2 else none

/-- The surviving words of the ASCII-scrub tier after dropping the
forbidden prefixes. -/
def tier3MsgWords (data : List ℕ) : List String :=
  (tier3Words data).filter fun w => !forbiddenStartB w

/-- The ASCII-scrub last-resort tier: the single surviving word, or the
survivors joined with single spaces. -/
def tier3 (data : List ℕ) : Option String :=
  match tier3MsgWords data with
  | [] => none
  | [w] => some w
  | ws => some (joinSpace ws)

/-- `MessageReader._extract_text_from_attributed_body`.  `data` is the raw
byte payload; `plist` is the outcome of the external `plistlib.loads data`
(`none` when the library raises).  Tier 1 runs on the parse result; a tier
1 exception or empty answer falls through to tier 2 and then tier 3. -/
def decodeAttributedBody (data : List ℕ) (plist : Option Plist) : Option String :=
  if data.isEmpty then none
  else
    match
      (match plist with
       | none => none
       | some p =>
         match tier1 p with
         | .ok r => r
         | .error _ => none : Option String)
    with
    | some s => some s
    | none =>
      match tier2 data with
      | some s => some s
      | none => tier3 data

/-- UTF-8 code units of a string as raw bytes (for building concrete
ASCII payloads). -/
def strBytes (s : String) : List ℕ := s.data.map Char.toNat

/-- No whitespace-separated token of `s` starts with a forbidden prefix. -/
def tokensClean (s : String) : Bool := (pySplitWs s).all fun w => !forbiddenStartB w

/-- One row of the joined relation scanned by both queries of
`MessageReader.search_messages` (`message LEFT JOIN handle LEFT JOIN ...`).
`text = none` is SQL `NULL`; `sender` is `handle.id` (`NULL` when the
join misses); `has_attachment` is `message.cache_has_attachments`. -/
structure Row where
  text : Option String
  sender : Option String
  raw_date : ℤ
  is_from_me : Bool
  service : String
  is_read : Bool
  has_attachment : Bool
  attachment_name : Option String
  attachment_mime : Option String
deriving DecidableEq, Inhabited

/-- The SQLite built-ins used on dates (external collaborators): `dge r d`
decides `date(datetime(r/1e9 + appleEpoch, 'unixepoch', 'localtime')) >=
date(d)`, `dle` the mirrored `<=`, and `dts r` is the
`datetime(..., 'localtime')` string selected as the row's display date.
Every theorem is universally quantified over this environment. -/
structure SqlEnv where
  dge : ℤ → String → Bool
  dle : ℤ → String → Bool
  dts : ℤ → String

/-- The keyword arguments of `search_messages` with their Python
defaults. -/
structure SearchArgs where
  content : Option String := none
  sender : Option String := none
  start_date : Option String := none
  end_date : Option String := none
  message_types : Option (List String) := none
  services : Option (List String) := none
  read_status : Option Bool := none
  has_attachments : Option Bool := none
  page : ℤ := 1
  page_size : ℤ := 20

/-- A formatted message dictionary as produced by the result loop of
`search_messages`. -/
structure FormattedMessage where
  text : Option String
  sender : String
  timestamp : String
  is_from_me : Bool
  service : String
  is_read : Bool
  has_attachment : Bool
  attachment : Option (Option String × Option String)
deriving DecidableEq

/-- `SearchResult` (messages, total count, page, page size, and the derived
`total_pages = (total_count + page_size - 1) // page_size`). -/
structure SearchResult where
  messages : List FormattedMessage
  total_count : ℤ
  page : ℤ
  page_size : ℤ
  total_pages : ℤ
deriving DecidableEq

/-- `MessageType.all_types()`. -/
def msgTypeAll : List String := ["text", "attachment"]

/-- `MessageService.all_services()`. -/
def msgServiceAll : List String := ["iMessage", "SMS"]

/-- SQL `LIKE` with `%` and `_` wildcards, ASCII case-insensitive (SQLite's
default collation for `LIKE`). -/
def sqlLikeL : List Char → List Char → Bool
  | [], s => s.isEmpty
  | '%' :: p, s =>
    sqlLikeL p s ||
      (match s with
       | [] => false
       | _ :: s2 => sqlLikeL ('%' :: p) s2)
  | '_' :: p, s =>
    (match s with
     | [] => false
     | _ :: s2 => sqlLikeL p s2)
  | c :: p, s =>
    (match s with
     | [] => false
     | d :: s2 => (asciiLowerChar c == asciiLowerChar d) && sqlLikeL p s2)
termination_by p s => (p.length, s.length)

/-- The `message.text LIKE '%content%'` predicate; a `NULL` text never
matches. -/
def contentPred (c : Option String) (r : Row) : Bool :=
  match c with
  | none => true
  | some cs =>
    if cs = "" then true
    else
      match r.text with
      | none => false
      | some t => sqlLikeL ('%' :: (cs.data ++ ['%'])) t.data

/-- The message-type filter fragment shared verbatim by the page and count
queries: unrecognized values are dropped; attachment-only and text-only
constrain `cache_has_attachments`; both (or none) recognized leave the
query unconstrained. -/
def typesPred (mt : Option (List String)) (r : Row) : Bool :=
  match mt with
  | none => true
  | some l =>
    if l.isEmpty then true
    else
      let valid := l.filter fun t => decide (t ∈ msgTypeAll)
      if "attachment" ∈ valid then
        if "text" ∈ valid then true else r.has_attachment
      else if "text" ∈ valid then !r.has_attachment
      else true

/-- The service filter fragment shared verbatim by both queries:
unrecognized values are dropped and an empty remainder imposes no
constraint. -/
def servicesPred (sv : Option (List String)) (r : Row) : Bool :=
  match sv with
  | none => true
  | some l =>
    if l.isEmpty then true
    else
      let valid := l.filter fun s => decide (s ∈ msgServiceAll)
      if valid.isEmpty then true else decide (r.service ∈ valid)

/-- The `message.is_read = ?` fragment. -/
def readPred (rs : Option Bool) (r : Row) : Bool :=
  match rs with
  | none => true
  | some b => r.is_read == b

/-- The `message.cache_has_attachments = ?` fragment. -/
def attachPred (ha : Option Bool) (r : Row) : Bool :=
  match ha with
  | none => true
  | some b => r.has_attachment == b

/-- The page query's sender fragment:
`(handle.id = ? OR (message.is_from_me = 1 AND handle.id = ?))`, both
parameters the raw sender string. -/
def senderPagePred (sd : Option String) (r : Row) : Bool :=
  match sd with
  | none => true
  | some s =>
    if s = "" then true
    else (r.sender == some s) || (r.is_from_me && (r.sender == some s))

/-- Python `''.join(filter(str.isdigit, sender))` plus the `+1`/`+`
prefixing of `search_messages`' count query. -/
def normalizePhone (s : String) : String :=
  let ds := String.mk (s.data.filter fun c => 48 ≤ c.toNat && c.toNat ≤ 57)
  if ds.length = 10 then "+1" ++ ds
  else if ds.length = 11 ∧ strStartsWith ds "1" then "+" ++ ds
  else ds

/-- The count query's sender fragment, which differs from the page query's:
`(handle.id = ? OR (message.is_from_me = 1 AND ? IN ('me', 'self')))` with
the digit-normalized sender and the lowercased raw sender as parameters. -/
def senderCountPred (sd : Option String) (r : Row) : Bool :=
  match sd with
  | none => true
  | some s =>
    if s = "" then true
    else
      (r.sender == some (normalizePhone s)) ||
        (r.is_from_me && (asciiLower s == "me" || asciiLower s == "self"))

/-- The `date(datetime(message.date...)) >= date(?)` fragment. -/
def startDatePred (env : SqlEnv) (sd : Option String) (r : Row) : Bool :=
  match sd with
  | none => true
  | some d => if d = "" then true else env.dge r.raw_date d

/-- The `date(datetime(message.date...)) <= date(?)` fragment. -/
def endDatePred (env : SqlEnv) (ed : Option String) (r : Row) : Bool :=
  match ed with
  | none => true
  | some d => if d = "" then true else env.dle r.raw_date d

/-- The complete `WHERE` predicate of the page query: the base
`message.service IN ('SMS', 'iMessage')` plus the optional fragments, in
source order.  Note that it has no eligibility clause for rows with null
or empty text and no attachment. -/
def pageRowPred (env : SqlEnv) (a : SearchArgs) (r : Row) : Bool :=
  decide (r.service ∈ ["SMS", "iMessage"]) &&
  contentPred a.content r &&
  typesPred a.message_types r &&
  servicesPred a.services r &&
  readPred a.read_status r &&
  attachPred a.has_attachments r &&
  senderPagePred a.sender r &&
  startDatePred env a.start_date r &&
  endDatePred env a.end_date r

/-- SQL `length(message.text) > 0` under three-valued logic: `NULL` is not
greater than 0. -/
def textNonEmpty (r : Row) : Bool :=
  match r.text with
  | none => false
  | some t => 0 < t.length

/-- The complete `WHERE` predicate of the count query: eligibility
(`text IS NOT NULL OR cache_has_attachments = 1`, and
`length(text) > 0 OR cache_has_attachments = 1`), the base service set,
and the mirrored optional fragments — with the count query's own sender
fragment. -/
def countRowPred (env : SqlEnv) (a : SearchArgs) (r : Row) : Bool :=
  (r.text.isSome || r.has_attachment) &&
  decide (r.service ∈ ["SMS", "iMessage"]) &&
  (textNonEmpty r || r.has_attachment) &&
  contentPred a.content r &&
  typesPred a.message_types r &&
  servicesPred a.services r &&
  readPred a.read_status r &&
  attachPred a.has_attachments r &&
  senderCountPred a.sender r &&
  startDatePred env a.start_date r &&
  endDatePred env a.end_date r

/-- Descending order on `raw_date` (`ORDER BY raw_date DESC`).  SQLite
leaves the order of ties unspecified; the model fixes the stable order. -/
def rowDateDesc (a b : Row) : Prop := (decide (b.raw_date ≤ a.raw_date) : Bool) = true

instance rowDateDescDec : DecidableRel rowDateDesc := fun _ _ => instDecidableEqBool _ _

/-- SQLite `LIMIT ? OFFSET ?`: a negative offset acts as 0, a negative
limit means no limit. -/
def sqlLimitOffset (limit offset : ℤ) (l : List α) : List α :=
  let l2 := l.drop (max offset 0).toNat
  if limit < 0 then l2 else l2.take limit.toNat

/-- The result-formatting loop of `search_messages`: `'me' if is_from_me
else (sender or 'unknown')` (an empty handle is falsy), the attachment
info dict when `has_attachment` is set. -/
def formatRow (env : SqlEnv) (r : Row) : FormattedMessage :=
  { text := r.text
    sender :=
      if r.is_from_me then "me"
      else
        match r.sender with
        | none => "unknown"
        | some s => if s = "" then "unknown" else s
    timestamp := env.dts r.raw_date
    is_from_me := r.is_from_me
    service := r.service
    is_read := r.is_read
    has_attachment := r.has_attachment
    attachment := if r.has_attachment then some (r.attachment_name, r.attachment_mime) else none }

/-- `MessageReader.search_messages` over a store of joined rows: the page
query (filter, order by raw date descending, limit/offset), the count
query (its own filter, no limit), and the formatting loop.  The
search-history recording is fire-and-forget against an external
collaborator and does not affect the returned `SearchResult`. -/
def searchMessages (env : SqlEnv) (store : List Row) (a : SearchArgs) : SearchResult :=
  let offset := (a.page - 1) * a.page_size
  let pageRows := sqlLimitOffset a.page_size offset
    (List.insertionSort rowDateDesc (store.filter (pageRowPred env a)))
  let total : ℤ := ((store.filter (countRowPred env a)).length : ℤ)
  { messages := pageRows.map (formatRow env)
    total_count := total
    page := a.page
    page_size := a.page_size
    total_pages := Int.fdiv (total + a.page_size - 1) a.page_size }

/-! ### Concrete inputs used by the witnesses and counterexamples. -/

/-- A trivial SQL environment: every date-range comparison passes and the
display date is the empty string. -/
def envTriv : SqlEnv := ⟨fun _ _ => true, fun _ _ => true, fun _ => ""⟩

/-- A semantically empty row: null text, no attachment (e.g. an unrendered
metadata event), on the iMessage service. -/
def rowNullText : Row :=
  { text := none, sender := some "+15551230001", raw_date := 100, is_from_me := false,
    service := "iMessage", is_read := false, has_attachment := false,
    attachment_name := none, attachment_mime := none }

/-- A second semantically empty row, on the SMS service. -/
def rowNullTextSms : Row :=
  { text := none, sender := some "+15551230002", raw_date := 200, is_from_me := false,
    service := "SMS", is_read := true, has_attachment := false,
    attachment_name := none, attachment_mime := none }

/-- Bytes of `"hi NSabc"`: plain ASCII whose single printable run passes
the text-scan tier's checks while containing an `NS`-prefixed token. -/
def bytesTier2Noise : List ℕ := strBytes "hi NSabc"

/-- Bytes of `"NSxyz hello"`: the whole run starts with `NS`, so the
text-scan tier rejects it and the ASCII-scrub tier answers. -/
def bytesTier3Only : List ℕ := strBytes "NSxyz hello"

/-- Bytes of `"hello"`. -/
def bytesPlain : List ℕ := strBytes "hello"

/-- A parsed keyed archive whose flat `$objects` array holds a single
object carrying `"NS.string": "Hello there"`. -/
def plistHello : Plist :=
  .dict [("$objects", .arr [.dict [("NS.string", .str "Hello there")]])]

/-- Stand-in bytes accompanying `plistHello` (tier 1 answers before the
raw bytes are ever inspected). -/
def bytesHello : List ℕ := strBytes "bplist00"

/-- A detector with the default configuration. -/
def tdDefault : ThreadDetector := {}

/-- The spec's four-message example: times `T, T+1h, T+6h, T+6h5m`. -/
def msgsGapExample : List Msg :=
  [⟨"2024-01-01T00:00:00", some "first", false⟩,
   ⟨"2024-01-01T01:00:00", some "second", true⟩,
   ⟨"2024-01-01T06:00:00", some "third", false⟩,
   ⟨"2024-01-01T06:05:00", some "fourth", true⟩]

/-- Witness buffer for the half-window similarity branch: one buffered
message sharing the incoming message's vocabulary. -/
def c4buf : List Msg := [⟨"2024-01-01T00:00:00", some "alpha beta", false⟩]

/-- Witness message arriving three hours later with identical words. -/
def c4msg : Msg := ⟨"2024-01-01T03:00:00", some "alpha beta", false⟩

/-- Counterexample buffer: the last buffered message has a null text, so
the similarity check raises. -/
def c4xBuf : List Msg :=
  [⟨"2024-01-01T00:00:00", some "alpha beta", false⟩,
   ⟨"2024-01-01T00:30:00", none, false⟩]

/-- Counterexample message: 2.5 h after the buffer's last message, full
vocabulary overlap with the buffer. -/
def c4xMsg : Msg := ⟨"2024-01-01T03:00:00", some "alpha beta", false⟩

/-- Counterexample input for thread detection: a null-text message
followed 3 h later (inside the similarity window) by a text message. -/
def c5badInput : List Msg :=
  [⟨"2024-03-05T10:00:00", none, false⟩,
   ⟨"2024-03-05T13:00:00", some "lunch plans", false⟩]

/-- A single well-formed message. -/
def c5okInput : List Msg := [⟨"2024-01-01T00:00:00", some "hello world message", false⟩]

/-- Counterexample input for the totality part of the timestamp claim:
well-formed timestamps but a null text inside the similarity window. -/
def c8badInput : List Msg :=
  [⟨"2024-06-01T09:00:00", none, true⟩,
   ⟨"2024-06-01T11:30:00", some "see you soon", false⟩]

/-- Witness buffer whose last message has an unparsable date. -/
def c8buf : List Msg := [⟨"garbled", some "y", false⟩]

/-- Witness message with a well-formed date. -/
def c8msg : Msg := ⟨"2024-06-02T00:00:00", some "x", false⟩

/-- Two threads one day apart with identical (stopword-free) vocabulary:
related, so `find_related_threads` groups them. -/
def c9threads : List Thread :=
  [createThreadObject [⟨"2024-01-01T00:00:00", some "project deadline tomorrow", false⟩] 0,
   createThreadObject [⟨"2024-01-02T00:00:00", some "project deadline tomorrow", true⟩] 1]

/-! ### Supporting lemmas: the kernel-computable rational helpers agree
with Mathlib's field operations. -/

theorem qOfInt_eq (i : ℤ) : qOfInt i = (i : ℚ) := by
  simp [qOfInt]

theorem qSub_eq (a b : ℚ) : qSub a b = a - b := by
  have ha : ((a.den : ℚ)) ≠ 0 := by exact_mod_cast a.den_nz
  have hb : ((b.den : ℚ)) ≠ 0 := by exact_mod_cast b.den_nz
  rw [qSub, Rat.mkRat_eq_div]
  push_cast
  conv_rhs => rw [← Rat.num_div_den a, ← Rat.num_div_den b]
  field_simp
  ring

theorem qMul_eq (a b : ℚ) : qMul a b = a * b := by
  have ha : ((a.den : ℚ)) ≠ 0 := by exact_mod_cast a.den_nz
  have hb : ((b.den : ℚ)) ≠ 0 := by exact_mod_cast b.den_nz
  rw [qMul, Rat.mkRat_eq_div]
  push_cast
  conv_rhs => rw [← Rat.num_div_den a, ← Rat.num_div_den b]
  field_simp

theorem qDiv_eq (a b : ℚ) : qDiv a b = a / b := by
  have ha : ((a.den : ℚ)) ≠ 0 := by exact_mod_cast a.den_nz
  rw [qDiv]
  rcases lt_trichotomy b.num 0 with hneg | hzero | hpos
  · rw [if_neg (by omega)]
    have hb : b ≠ 0 := by
      intro e
      rw [e] at hneg
      simp at hneg
    have hbn : ((b.num.natAbs : ℚ)) = -(b.num : ℚ) := by
      rw [Int.cast_natAbs, abs_of_neg hneg]
      push_cast
      ring
    have hbq : ((b.num : ℚ)) ≠ 0 := by
      exact_mod_cast Int.ne_of_lt hneg
    have hdb : ((b.den : ℚ)) ≠ 0 := by exact_mod_cast b.den_nz
    rw [Rat.mkRat_eq_div]
    push_cast
    rw [hbn]
    conv_rhs => rw [← Rat.num_div_den a, ← Rat.num_div_den b]
    field_simp
    try ring
  · rw [if_pos (by omega)]
    have hb : b = 0 := Rat.num_eq_zero.mp hzero
    subst hb
    simp [Rat.mkRat_eq_div]
  · rw [if_pos (le_of_lt hpos)]
    have hbn : ((b.num.natAbs : ℚ)) = (b.num : ℚ) := by
      rw [Int.cast_natAbs, abs_of_nonneg (le_of_lt hpos)]
    have hbq : ((b.num : ℚ)) ≠ 0 := by
      have : b.num ≠ 0 := by omega
      exact_mod_cast this
    have hdb : ((b.den : ℚ)) ≠ 0 := by exact_mod_cast b.den_nz
    rw [Rat.mkRat_eq_div]
    push_cast
    rw [hbn]
    conv_rhs => rw [← Rat.num_div_den a, ← Rat.num_div_den b]
    field_simp
    try ring

theorem jaccardSimilarity_eq_div (A B : Finset String) :
    jaccardSimilarity A B = ((A ∩ B).card : ℚ) / ((A ∪ B).card : ℚ) := by
  rw [jaccardSimilarity, qDiv_eq, Rat.mkRat_one, Rat.mkRat_one]
  push_cast
  rfl

theorem qAbs_eq (a : ℚ) : qAbs a = |a| := by
  rw [qAbs]
  by_cases h : a.num < 0
  · rw [if_pos h]
    have ha : a < 0 := by
      rw [← Rat.num_neg]
      exact_mod_cast h
    rw [abs_of_neg ha]
    rw [show mkRat (-a.num) a.den = -mkRat a.num a.den by rw [Rat.neg_mkRat]]
    rw [Rat.mkRat_self]
  · rw [if_neg h]
    have ha : 0 ≤ a := by
      rw [← Rat.num_nonneg]
      omega
    rw [abs_of_nonneg ha]

theorem calculateTimeGap_eq (m1 m2 : Msg) (a b : ℤ)
    (h1 : parseIso m1.date = some a) (h2 : parseIso m2.date = some b) :
    calculateTimeGap m1 m2 = some |((b : ℚ) - (a : ℚ)) / 3600| := by
  rw [calculateTimeGap, h1, h2]
  dsimp only
  rw [qAbs_eq, qDiv_eq, qSub_eq, qOfInt_eq, qOfInt_eq, Rat.mkRat_one]
  push_cast
  rfl

/-! ### Supporting lemmas about the decoder tiers. -/

theorem pyMaxByGo_mem (key : String → ℕ) (best : String) (l : List String) :
    pyMaxByGo key best l = best ∨ pyMaxByGo key best l ∈ l := by
  induction l generalizing best with
  | nil => left; rfl
  | cons y ys ih =>
    rw [pyMaxByGo]
    by_cases h : key best < key y
    · rw [if_pos h]
      rcases ih y with h2 | h2
      · right; rw [h2]; exact List.mem_cons_self _ _
      · right; exact List.mem_cons_of_mem _ h2
    · rw [if_neg h]
      rcases ih best with h2 | h2
      · left; exact h2
      · right; exact List.mem_cons_of_mem _ h2

theorem pyMaxBy_mem (key : String → ℕ) (l : List String) (s : String)
    (h : pyMaxBy key l = some s) : s ∈ l := by
  cases l with
  | nil => simp [pyMaxBy] at h
  | cons x xs =>
    rw [pyMaxBy] at h
    injection h with h
    rcases pyMaxByGo_mem key x xs with h2 | h2
    · rw [← h, h2]; exact List.mem_cons_self _ _
    · rw [← h]; exact List.mem_cons_of_mem _ h2

theorem tier2Cands_props (data : List ℕ) (s : String) (h : s ∈ tier2Cands data) :
    2 < s.length ∧ forbiddenStartB s = false := by
  rw [tier2Cands, List.mem_filterMap] at h
  obtain ⟨seq, _, hf⟩ := h
  simp only at hf
  split at hf
  · split at hf
    · injection hf with hf
      subst hf
      rename_i hcond _
      simp only [Bool.and_eq_true, Bool.not_eq_true', decide_eq_true_eq] at hcond
      obtain ⟨⟨⟨⟨⟨⟨⟨⟨⟨⟨hlen, h1⟩, h2⟩, h3⟩, h4⟩, -⟩, -⟩, -⟩, -⟩, -⟩, -⟩ := hcond
      refine ⟨hlen, ?_⟩
      rw [forbiddenStartB, h1, h2, h3, h4]
      rfl
    · cases hf
  · cases hf

theorem tier2_props (data : List ℕ) (s : String) (h : tier2 data = some s) :
    2 < s.length ∧ forbiddenStartB s = false :=
  tier2Cands_props data s (pyMaxBy_mem _ _ _ h)

theorem runsBy_chars (keep : Char → Bool) (cs cur : List Char)
    (hcur : ∀ c ∈ cur, keep c = true) :
    ∀ r ∈ runsBy keep cs cur, ∀ c ∈ r, keep c = true := by
  induction cs generalizing cur with
  | nil =>
    intro r hr c hc
    rw [runsBy] at hr
    split at hr
    · cases hr
    · rw [List.mem_singleton] at hr
      subst hr
      exact hcur c (List.mem_reverse.mp hc)
  | cons x xs ih =>
    intro r hr c hc
    rw [runsBy] at hr
    by_cases hx : keep x
    · rw [if_pos hx] at hr
      refine ih (x :: cur) ?_ r hr c hc
      intro d hd
      rcases List.mem_cons.mp hd with h | h
      · rw [h]; exact hx
      · exact hcur d h
    · rw [if_neg hx] at hr
      split at hr
      · exact ih [] (fun d hd => absurd hd (List.not_mem_nil d)) r hr c hc
      · rcases List.mem_cons.mp hr with h | h
        · subst h
          exact hcur c (List.mem_reverse.mp hc)
        · exact ih [] (fun d hd => absurd hd (List.not_mem_nil d)) r h c hc

theorem pyStripL_subset (cs : List Char) (c : Char) (h : c ∈ pyStripL cs) : c ∈ cs := by
  rw [pyStripL] at h
  rw [List.mem_reverse] at h
  have h1 := (List.dropWhile_sublist pyIsSpace (l := (cs.dropWhile pyIsSpace).reverse)).mem h
  rw [List.mem_reverse] at h1
  exact (List.dropWhile_sublist pyIsSpace (l := cs)).mem h1

theorem tier3Words_props (data : List ℕ) (w : String) (h : w ∈ tier3Words data) :
    2 < w.length ∧ ∀ c ∈ w.data, pyIsSpace c = false := by
  rw [tier3Words, List.mem_filterMap] at h
  obtain ⟨r, hr, hf⟩ := h
  simp only at hf
  split at hf
  · injection hf with hf
    subst hf
    rename_i hlen
    refine ⟨hlen, ?_⟩
    intro c hc
    have hmem : c ∈ r := pyStripL_subset _ c hc
    have := runsBy_chars (fun c => !pyIsSpace c) _ [] (by intro d hd; cases hd) r hr c hmem
    simpa using this
  · cases hf

theorem tier3MsgWords_props (data : List ℕ) (w : String) (h : w ∈ tier3MsgWords data) :
    2 < w.length ∧ (∀ c ∈ w.data, pyIsSpace c = false) ∧ forbiddenStartB w = false := by
  rw [tier3MsgWords, List.mem_filter] at h
  obtain ⟨h1, h2⟩ := h
  obtain ⟨h3, h4⟩ := tier3Words_props data w h1
  exact ⟨h3, h4, by simpa using h2⟩

theorem strMk_data (s : String) : String.mk s.data = s := rfl

theorem runsBy_all_keep (keep : Char → Bool) (cs cur : List Char)
    (hcs : ∀ c ∈ cs, keep c = true) (hcur : ∀ c ∈ cur, keep c = true) :
    runsBy keep cs cur =
      if (cur.reverse ++ cs).isEmpty then [] else [cur.reverse ++ cs] := by
  induction cs generalizing cur with
  | nil =>
    rw [runsBy]
    simp [List.isEmpty_iff]
  | cons x xs ih =>
    rw [runsBy, if_pos (hcs x (List.mem_cons_self _ _))]
    have hcur2 : ∀ c ∈ x :: cur, keep c = true := by
      intro d hd
      rcases List.mem_cons.mp hd with h | h
      · rw [h]; exact hcs x (List.mem_cons_self _ _)
      · exact hcur d h
    rw [ih (x :: cur) (fun d hd => hcs d (List.mem_cons_of_mem _ hd)) hcur2]
    simp

theorem runsBy_word_break (keep : Char → Bool) (xs rest cur : List Char) (sep : Char)
    (hxs : ∀ c ∈ xs, keep c = true) (hsep : keep sep = false)
    (hne : cur.reverse ++ xs ≠ []) :
    runsBy keep (xs ++ sep :: rest) cur = (cur.reverse ++ xs) :: runsBy keep rest [] := by
  induction xs generalizing cur with
  | nil =>
    have hc : cur ≠ [] := by
      intro e
      apply hne
      simp [e]
    show runsBy keep (sep :: rest) cur = (cur.reverse ++ []) :: runsBy keep rest []
    rw [runsBy, if_neg (by rw [hsep]; exact Bool.false_ne_true)]
    rw [if_neg (by simp only [List.isEmpty_iff]; exact hc)]
    simp
  | cons x xs ih =>
    rw [List.cons_append, runsBy, if_pos (hxs x (List.mem_cons_self _ _))]
    rw [ih (x :: cur) (fun d hd => hxs d (List.mem_cons_of_mem _ hd)) (by simp)]
    simp

theorem joinSpace_data (w : String) (ws : List String) (hne : ws ≠ []) :
    (joinSpace (w :: ws)).data = w.data ++ ' ' :: (joinSpace ws).data := by
  cases ws with
  | nil => exact absurd rfl hne
  | cons y ys =>
    show (w ++ " " ++ joinSpace (y :: ys)).data = _
    rw [String.data_append, String.data_append]
    simp

theorem pySplitWs_join (ws : List String) (hws : ws ≠ [])
    (hprops : ∀ w ∈ ws, w.data ≠ [] ∧ ∀ c ∈ w.data, pyIsSpace c = false) :
    pySplitWs (joinSpace ws) = ws := by
  induction ws with
  | nil => exact absurd rfl hws
  | cons w ws ih =>
    by_cases h : ws = []
    · subst h
      show (runsBy (fun c => !pyIsSpace c) (joinSpace [w]).data []).map String.mk = [w]
      have hw := hprops w (List.mem_cons_self _ _)
      rw [show joinSpace [w] = w from rfl]
      rw [runsBy_all_keep _ _ _ (by intro c hc; simpa using hw.2 c hc) (by intro c hc; cases hc)]
      rw [if_neg (by simpa [List.isEmpty_iff] using hw.1)]
      simp [strMk_data]
    · have hw := hprops w (List.mem_cons_self _ _)
      show (runsBy (fun c => !pyIsSpace c) (joinSpace (w :: ws)).data []).map String.mk = w :: ws
      rw [joinSpace_data w ws h]
      rw [runsBy_word_break _ _ _ _ _ (by intro c hc; simpa using hw.2 c hc) (by simp [pyIsSpace]) (by simpa using hw.1)]
      rw [List.map_cons]
      rw [show List.reverse [] ++ w.data = w.data by simp]
      rw [strMk_data]
      have := ih h (by intro x hx; exact hprops x (List.mem_cons_of_mem _ hx))
      rw [pySplitWs] at this
      rw [this]

theorem stripGuard_len (t s : String)
    (h : (if 0 < (pyStrip t).length then some (pyStrip t) else none) = some s) :
    0 < s.length := by
  split at h
  · injection h with h
    rw [← h]
    assumption
  · cases h

theorem scanObj_len (objs : List Plist) (obj : Plist) (s : String)
    (h : scanObj objs obj = .ok (some s)) : 0 < s.length := by
  rcases obj with t | i | b | bs | l | d
  · simp [scanObj] at h
  · simp [scanObj] at h
  · simp [scanObj] at h
  · simp [scanObj] at h
  · simp [scanObj] at h
  · dsimp only [scanObj] at h
    split at h
    · rename_i e heq
      cases h
    · rename_i s1 heq
      injection h with h
      injection h with h
      rw [← h]
      split at heq
      · split at heq
        · rename_i d2 hd2
          split at heq
          · split at heq
            · rename_i uv huv
              split at heq
              · cases heq
              · rename_i i hi
                split at heq
                · split at heq
                  · cases heq
                  · rename_i t ht
                    injection heq with heq
                    exact stripGuard_len t s1 heq
                  · injection heq with heq
                    cases heq
                · cases heq
            · cases heq
          · cases heq
        · cases heq
      · cases heq
    · rename_i heq
      split at h
      · rename_i c hc
        injection h with h
        exact stripGuard_len c s h
      · cases h

theorem tier1Scan_len (objs : List Plist) (l : List Plist) (s : String)
    (h : tier1Scan objs l = .ok (some s)) : 0 < s.length := by
  induction l with
  | nil => simp [tier1Scan] at h
  | cons obj rest ih =>
    rw [tier1Scan] at h
    split at h
    · cases h
    · rename_i s1 heq
      injection h with h
      injection h with h
      rw [← h]
      exact scanObj_len objs obj s1 heq
    · exact ih h

theorem looseStrings_len (objs : List Plist) (s : String) (h : s ∈ looseStrings objs) :
    2 < s.length := by
  rw [looseStrings, List.mem_filterMap] at h
  obtain ⟨obj, _, hf⟩ := h
  rcases obj with t | i | b | bs | l | d
  · simp only at hf
    split at hf
    · injection hf with hf
      rename_i hcond
      simp only [Bool.and_eq_true, decide_eq_true_eq] at hcond
      rw [← hf]
      exact hcond.1.1.1.1.1.1.1.1
    · cases hf
  · cases hf
  · cases hf
  · cases hf
  · cases hf
  · cases hf

theorem tier1_len (p : Plist) (s : String) (h : tier1 p = .ok (some s)) : 0 < s.length := by
  rcases p with t | i | b | bs | l | es
  · simp [tier1] at h
  · simp [tier1] at h
  · simp [tier1] at h
  · simp [tier1] at h
  · simp [tier1] at h
  · rw [tier1] at h
    split at h
    · cases h
    · split at h
      · cases h
      · split at h
        · cases h
        · rename_i s1 heq
          injection h with h
          injection h with h
          rw [← h]
          rename_i objs _ _
          exact tier1Scan_len objs objs s1 heq
        · injection h with h
          have hmem := pyMaxBy_mem _ _ _ h
          have := looseStrings_len _ _ hmem
          omega

theorem strLen_data (s : String) : s.length = s.data.length := rfl

theorem tier3_tokensClean (data : List ℕ) (s : String) (h : tier3 data = some s) :
    tokensClean s = true := by
  rw [tier3] at h
  split at h
  · cases h
  · rename_i w heq
    injection h with h
    have hp := tier3MsgWords_props data w (by rw [heq]; exact List.mem_singleton_self w)
    have hne : w.data ≠ [] := by
      intro e
      have h1 := hp.1
      rw [strLen_data, e] at h1
      simp at h1
    have hsplit : pySplitWs (joinSpace [w]) = [w] :=
      pySplitWs_join [w] (by simp)
        (by
          intro x hx
          rw [List.mem_singleton] at hx
          rw [hx]
          exact ⟨hne, hp.2.1⟩)
    have hsplit2 : pySplitWs w = [w] := hsplit
    rw [← h, tokensClean, hsplit2]
    simp [hp.2.2]
  · rename_i ws hne1 hne2
    injection h with h
    rcases hlist : tier3MsgWords data with _ | ⟨w1, _ | ⟨w2, rest⟩⟩
    · exact absurd hlist hne1
    · exact absurd hlist (hne2 w1)
    · have hprops : ∀ x ∈ w1 :: w2 :: rest, x.data ≠ [] ∧ ∀ c ∈ x.data, pyIsSpace c = false := by
        intro x hx
        have hp := tier3MsgWords_props data x (by rw [hlist]; exact hx)
        refine ⟨?_, hp.2.1⟩
        intro e
        have h1 := hp.1
        rw [strLen_data, e] at h1
        simp at h1
      have hsplit := pySplitWs_join (w1 :: w2 :: rest) (by simp) hprops
      rw [← h, hlist, tokensClean, hsplit]
      rw [List.all_eq_true]
      intro x hx
      have hp := tier3MsgWords_props data x (by rw [hlist]; exact hx)
      simp [hp.2.2]

theorem tier3_len (data : List ℕ) (s : String) (h : tier3 data = some s) : 0 < s.length := by
  rw [tier3] at h
  split at h
  · cases h
  · rename_i w heq
    injection h with h
    have hp := tier3MsgWords_props data w (by rw [heq]; exact List.mem_singleton_self w)
    rw [← h]
    omega
  · rename_i ws hne1 hne2
    injection h with h
    rcases hlist : tier3MsgWords data with _ | ⟨w1, _ | ⟨w2, rest⟩⟩
    · exact absurd hlist hne1
    · exact absurd hlist (hne2 w1)
    · have hp := tier3MsgWords_props data w1 (by rw [hlist]; exact List.mem_cons_self _ _)
      rw [← h, hlist, strLen_data, joinSpace_data w1 (w2 :: rest) (by simp)]
      rw [List.length_append, List.length_cons]
      omega

/-- C1O helper: a string of positive length is not the empty string. -/
theorem strLen_pos_ne_empty (s : String) (h : 0 < s.length) : s ≠ "" := by
  intro e
  rw [e] at h
  simp at h

/-! ### Claims about the rich-text decoder. -/

/-- C3 (amended): for every payload, the decoder terminates (it is a total
function) and returns `none` or a string; the token-prefix guarantee holds
per tier: a text-scan (tier 2) result does not itself start with `NS`,
`__`, `CF` or `$`, and an ASCII-scrub (tier 3) result has no
whitespace-separated token starting with one of those prefixes.  A
structured-tier (tier 1) result — the archive's own `NS.string` content —
carries no such guarantee, which is what refutes the claim as stated
(see the counterexample). -/
theorem c3_decode_token_discipline (data : List ℕ) (plist : Option Plist) (s : String)
    (h : decodeAttributedBody data plist = some s) :
    (∃ p, plist = some p ∧ tier1 p = .ok (some s)) ∨
    (tier2 data = some s ∧ forbiddenStartB s = false) ∨
    (tier3 data = some s ∧ tokensClean s = true) := by
  rw [decodeAttributedBody.eq_def] at h
  split at h
  · cases h
  · split at h
    · rename_i s0 heq
      injection h with h
      rw [← h]
      left
      split at heq
      · cases heq
      · rename_i p
        split at heq
        · rename_i r hr
          exact ⟨p, rfl, by rw [hr, heq]⟩
        · cases heq
    · split at h
      · rename_i s1 heq2
        injection h with h
        rw [← h]
        exact Or.inr (Or.inl ⟨heq2, (tier2_props data s1 heq2).2⟩)
      · exact Or.inr (Or.inr ⟨h, tier3_tokensClean data s h⟩)

/-- C3 witness: on the bytes of `"NSxyz hello"` with no parsable plist the
decoder answers `"hello"` from the ASCII-scrub tier, and the amended
token guarantee holds there. -/
theorem c3_witness :
    tier3 bytesTier3Only = some "hello" ∧ tokensClean "hello" = true := by
  rcases c3_decode_token_discipline bytesTier3Only none "hello" (by rfl) with
    ⟨p, hp, _⟩ | ⟨h2, _⟩ | h3
  · cases hp
  · rw [show tier2 bytesTier3Only = none from rfl] at h2
    cases h2
  · exact h3

/-- C3 counterexample: the payload `"hi NSabc"` fails structured parsing,
and the text-scan tier returns the whole run `"hi NSabc"`, whose second
whitespace-separated token starts with `NS` — so the claim's token
condition fails on the code as stated. -/
theorem c3_counterexample :
    decodeAttributedBody bytesTier2Noise none = some "hi NSabc" ∧
    pySplitWs "hi NSabc" = ["hi", "NSabc"] ∧
    strStartsWith "NSabc" "NS" = true ∧
    tokensClean "hi NSabc" = false := ⟨rfl, rfl, rfl, rfl⟩

/-- C6: a keyed archive whose flat `$objects` array holds a single object
carrying `"NS.string": "Hello there"` decodes to exactly `"Hello there"`
through the structured tier. -/
theorem c6_structured_roundtrip :
    decodeAttributedBody bytesHello (some plistHello) = some "Hello there" := rfl

/-- C10: whenever the decoder returns a string rather than `None`, that
string is non-empty — every return site guards on a positive (stripped)
length — so callers can detect absent text by the `None` result alone. -/
theorem c10_decode_nonempty (data : List ℕ) (plist : Option Plist) (s : String)
    (h : decodeAttributedBody data plist = some s) : s ≠ "" := by
  apply strLen_pos_ne_empty
  rw [decodeAttributedBody.eq_def] at h
  split at h
  · cases h
  · split at h
    · rename_i s0 heq
      injection h with h
      rw [← h]
      split at heq
      · cases heq
      · rename_i p
        split at heq
        · rename_i r hr
          exact tier1_len p s0 (by rw [hr, heq])
        · cases heq
    · split at h
      · rename_i s1 heq2
        injection h with h
        rw [← h]
        have := (tier2_props data s1 heq2).1
        omega
      · exact tier3_len data s h

/-- C10 witness: the bytes of `"hello"` decode to the non-empty string
`"hello"`. -/
theorem c10_witness :
    decodeAttributedBody bytesPlain none = some "hello" ∧ "hello" ≠ "" :=
  ⟨by rfl, c10_decode_nonempty bytesPlain none "hello" (by rfl)⟩

/-! ### Supporting lemmas about the thread segmenter. -/

theorem qDiv_zero_num (b : ℚ) : qDiv 0 b = 0 := by
  rw [qDiv_eq]
  simp

theorem jaccard_empty_left (B : Finset String) : jaccardSimilarity ∅ B = 0 := by
  rw [jaccardSimilarity]
  simp only [Finset.empty_inter, Finset.card_empty]
  rw [show mkRat ((0 : ℕ) : ℤ) 1 = 0 by simp]
  exact qDiv_zero_num _

theorem jaccard_empty_right (A : Finset String) : jaccardSimilarity A ∅ = 0 := by
  rw [jaccardSimilarity]
  simp only [Finset.inter_empty, Finset.card_empty]
  rw [show mkRat ((0 : ℕ) : ℤ) 1 = 0 by simp]
  exact qDiv_zero_num _

theorem threadWordsGo_ok (l : List Msg) :
    ∀ acc : Finset String, (∀ m ∈ l, m.text ≠ none) →
      threadWordsGo l acc = .ok (acc ∪ bufWordSet l) := by
  induction l with
  | nil =>
    intro acc _
    rw [threadWordsGo, bufWordSet, Finset.union_empty]
  | cons m ms ih =>
    intro acc hl
    rw [threadWordsGo]
    rcases hm : m.text with _ | t
    · exact absurd hm (hl m (List.mem_cons_self _ _))
    · dsimp only
      rw [ih (acc ∪ (pyFindWords (asciiLower t)).toFinset)
        (fun x hx => hl x (List.mem_cons_of_mem _ hx))]
      rw [bufWordSet]
      rw [show msgWordSet m = (pyFindWords (asciiLower t)).toFinset by rw [msgWordSet, hm]]
      rw [Finset.union_assoc]

theorem calcSim_eq (m : Msg) (thread : List Msg)
    (h5 : ∀ x ∈ lastN 5 thread, x.text ≠ none) :
    calculateContentSimilarity m thread =
      .ok (jaccardSimilarity (msgWordSet m) (bufWordSet (lastN 5 thread))) := by
  rw [calculateContentSimilarity]
  rcases hm : m.text with _ | t
  · dsimp only
    rw [show msgWordSet m = ∅ by rw [msgWordSet, hm]]
    rw [jaccard_empty_left]
  · dsimp only
    by_cases ht : t = ""
    · subst ht
      rw [if_pos rfl]
      rw [show msgWordSet m = ∅ by rw [msgWordSet, hm]; rfl]
      rw [jaccard_empty_left]
    · rw [if_neg ht]
      rw [threadWordsGo_ok (lastN 5 thread) ∅ h5, Finset.empty_union]
      dsimp only
      rw [show msgWordSet m = (pyFindWords (asciiLower t)).toFinset by rw [msgWordSet, hm]]
      by_cases htw : bufWordSet (lastN 5 thread) = ∅
      · rw [if_pos htw, htw, jaccard_empty_right]
      · rw [if_neg htw]
        have hu : 0 < ((pyFindWords (asciiLower t)).toFinset ∪ bufWordSet (lastN 5 thread)).card := by
          rw [Finset.card_pos]
          exact Finset.Nonempty.mono Finset.subset_union_right
            (Finset.nonempty_iff_ne_empty.mpr htw)
        rw [if_pos hu]
        rfl

theorem timeGap_nonneg (a b : Msg) (g : ℚ) (h : calculateTimeGap a b = some g) : 0 ≤ g := by
  rw [calculateTimeGap] at h
  rcases h1 : parseIso a.date with _ | x
  · rw [h1] at h; cases h
  · rcases h2 : parseIso b.date with _ | y
    · rw [h1, h2] at h; cases h
    · rw [h1, h2] at h
      injection h with h
      rw [← h, qAbs_eq]
      exact abs_nonneg _

theorem notEmpty_isEmpty_false {α : Type} (l : List α) (h : l ≠ []) : ¬(l.isEmpty = true) := by
  simp only [List.isEmpty_iff]
  exact h

/-! ### Claims about the thread segmenter's admission rule. -/

/-- C4 (amended): with the buffer non-empty and the gap to its last message
finite, a gap above `time_gap_hours` always starts a new thread, a gap of
at most half the window admits unconditionally, and a gap in between
admits exactly when the Jaccard similarity between the message's lowercase
word set and the union of the last five buffered messages' word sets
reaches `similarity_threshold` — provided those five messages all carry
string (non-null) texts; a null text there makes the similarity check
raise instead (see the counterexample).  The spec's four-message example
`T, T+1h, T+6h, T+6h5m` yields exactly two threads of sizes 2 and 2. -/
theorem c4_admission_rule (td : ThreadDetector) (m : Msg) (thread : List Msg)
    (hne : thread ≠ []) (g : ℚ)
    (hg : calculateTimeGap (thread.getLastD default) m = some g) :
    (td.time_gap_hours < g → belongsToThread td m thread = .ok false) ∧
    ((∀ x ∈ lastN 5 thread, x.text ≠ none) →
      td.time_gap_hours / 2 < g → g ≤ td.time_gap_hours →
      belongsToThread td m thread =
        .ok (decide (td.similarity_threshold ≤
          jaccardSimilarity (msgWordSet m) (bufWordSet (lastN 5 thread))))) ∧
    (g ≤ td.time_gap_hours / 2 → belongsToThread td m thread = .ok true) ∧
    (detectThreads tdDefault msgsGapExample).map (fun ts => ts.map Thread.message_count)
      = .ok [2, 2] := by
  have hnn : 0 ≤ g := timeGap_nonneg _ _ _ hg
  have hhalf : qDiv td.time_gap_hours (mkRat 2 1) = td.time_gap_hours / 2 := by
    rw [qDiv_eq]
    norm_num
  refine ⟨?_, ?_, ?_, by rfl⟩
  · intro hgt
    rw [belongsToThread, if_neg (notEmpty_isEmpty_false thread hne), hg]
    dsimp only
    rw [show gapGt (some g) td.time_gap_hours = true by
      rw [gapGt, qLt, decide_eq_true_eq]; exact hgt]
    rfl
  · intro htext hlow hhigh
    rw [belongsToThread, if_neg (notEmpty_isEmpty_false thread hne), hg]
    dsimp only
    rw [show gapGt (some g) td.time_gap_hours = false by
      rw [gapGt, qLt, decide_eq_false_iff_not]; exact not_lt.mpr hhigh]
    rw [show gapGt (some g) (qDiv td.time_gap_hours (mkRat 2 1)) = true by
      rw [gapGt, qLt, hhalf, decide_eq_true_eq]; exact hlow]
    rw [calcSim_eq m thread htext]
    rfl
  · intro hsmall
    have hT : 0 ≤ td.time_gap_hours := by
      by_contra hT
      push_neg at hT
      have : td.time_gap_hours / 2 < 0 := by linarith
      linarith
    rw [belongsToThread, if_neg (notEmpty_isEmpty_false thread hne), hg]
    dsimp only
    rw [show gapGt (some g) td.time_gap_hours = false by
      rw [gapGt, qLt, decide_eq_false_iff_not]
      push_neg
      linarith]
    rw [show gapGt (some g) (qDiv td.time_gap_hours (mkRat 2 1)) = false by
      rw [gapGt, qLt, hhalf, decide_eq_false_iff_not]
      exact not_lt.mpr hsmall]
    rfl

/-- C4 witness: with the default configuration, a message three hours after
a single buffered message with identical vocabulary falls in the
half-window band and is admitted exactly by the Jaccard test (here 1 ≥
0.3), and the spec's four-message example yields threads of sizes 2, 2. -/
theorem c4_witness :
    belongsToThread tdDefault c4msg c4buf =
      .ok (decide (tdDefault.similarity_threshold ≤
        jaccardSimilarity (msgWordSet c4msg) (bufWordSet (lastN 5 c4buf)))) ∧
    (detectThreads tdDefault msgsGapExample).map (fun ts => ts.map Thread.message_count)
      = .ok [2, 2] := by
  have h4 : tdDefault.time_gap_hours = 4 := by
    show mkRat 4 1 = (4 : ℚ)
    rw [Rat.mkRat_one]
    norm_num
  have h3 : (mkRat 3 1 : ℚ) = 3 := by
    rw [Rat.mkRat_one]
    norm_num
  have hc := c4_admission_rule tdDefault c4msg c4buf (by decide) (mkRat 3 1) (by rfl)
  refine ⟨hc.2.1 (by decide) ?_ ?_, hc.2.2.2⟩
  · rw [h4, h3]
    norm_num
  · rw [h4, h3]
    norm_num

/-- C4 counterexample: the gap is 2.5 h (inside the half-window band) and
the claim's Jaccard similarity is 1 ≥ 0.3, yet the message is not admitted
— `_belongs_to_thread` raises `AttributeError` because a buffered
message's text is `None`. -/
theorem c4_counterexample :
    calculateTimeGap (c4xBuf.getLastD default) c4xMsg = some (mkRat 5 2) ∧
    qLt (qDiv tdDefault.time_gap_hours (mkRat 2 1)) (mkRat 5 2) = true ∧
    qLe (mkRat 5 2) tdDefault.time_gap_hours = true ∧
    qLe tdDefault.similarity_threshold
      (jaccardSimilarity (msgWordSet c4xMsg) (bufWordSet (lastN 5 c4xBuf))) = true ∧
    belongsToThread tdDefault c4xMsg c4xBuf = .error () :=
  ⟨rfl, rfl, rfl, rfl, rfl⟩

theorem create_fields (msgs : List Msg) (tid : ℕ) (h : msgs ≠ []) :
    (createThreadObject msgs tid).messages = msgs ∧
    (createThreadObject msgs tid).thread_id = tid := by
  cases msgs with
  | nil => exact absurd rfl h
  | cons m ms => exact ⟨rfl, rfl⟩

theorem detectGo_spec (td : ThreadDetector) :
    ∀ (pending current : List Msg) (tid : ℕ) (acc ts : List Thread),
      detectGo td pending current tid acc = .ok ts →
      ∃ new, ts = acc ++ new ∧
        ((new.map Thread.messages).flatten = current ++ pending) ∧
        new.map Thread.thread_id = List.range' tid new.length := by
  intro pending
  induction pending with
  | nil =>
    intro current tid acc ts h
    rw [detectGo] at h
    injection h with h
    by_cases hc : current.isEmpty = true
    · rw [if_pos hc] at h
      refine ⟨[], by rw [← h], ?_, rfl⟩
      rw [List.isEmpty_iff.mp hc]
      rfl
    · rw [if_neg hc] at h
      have hcne : current ≠ [] := by
        intro e
        exact hc (List.isEmpty_iff.mpr e)
      obtain ⟨hmsg, hid⟩ := create_fields current tid hcne
      refine ⟨[createThreadObject current tid], by rw [← h], ?_, ?_⟩
      · simp [hmsg]
      · simp [hid, List.range']
  | cons m rest ih =>
    intro current tid acc ts h
    rw [detectGo] at h
    by_cases hc : current.isEmpty = true
    · rw [if_pos hc] at h
      obtain ⟨new, h1, h2, h3⟩ := ih [m] tid acc ts h
      refine ⟨new, h1, ?_, h3⟩
      rw [h2, List.isEmpty_iff.mp hc]
      rfl
    · rw [if_neg hc] at h
      have hcne : current ≠ [] := by
        intro e
        exact hc (List.isEmpty_iff.mpr e)
      split at h
      · cases h
      · obtain ⟨new, h1, h2, h3⟩ := ih (current ++ [m]) tid acc ts h
        refine ⟨new, h1, ?_, h3⟩
        rw [h2]
        simp
      · obtain ⟨new, h1, h2, h3⟩ := ih [m] (tid + 1) (acc ++ [createThreadObject current tid]) ts h
        obtain ⟨hmsg, hid⟩ := create_fields current tid hcne
        refine ⟨createThreadObject current tid :: new, by rw [h1]; simp, ?_, ?_⟩
        · rw [List.map_cons, List.flatten_cons, hmsg, h2]
          simp
        · rw [List.map_cons, hid, h3, List.length_cons, List.range'_succ]

/-! ### Claims about `detect_threads` as a whole. -/

/-- C5 (amended): whenever `detect_threads` completes (in particular
whenever every message's text is a string), it partitions its input: the
concatenation of the returned threads' message lists equals the input
stably sorted by date ascending, is a permutation of the input (nothing
dropped or duplicated, the final buffer included), and the thread ids are
exactly `0, 1, 2, …` in emission order.  On inputs with a null text inside
the similarity window the Python function instead raises (see the
counterexample). -/
theorem c5_partition (td : ThreadDetector) (msgs : List Msg) (ts : List Thread)
    (h : detectThreads td msgs = .ok ts) :
    ((ts.map Thread.messages).flatten = pySortedByDate msgs) ∧
    ((ts.map Thread.messages).flatten.Perm msgs) ∧
    ts.map Thread.thread_id = List.range ts.length := by
  rw [detectThreads] at h
  split at h
  · rename_i he
    injection h with h
    rw [← h]
    rw [List.isEmpty_iff.mp he]
    exact ⟨rfl, List.Perm.refl _, rfl⟩
  · obtain ⟨new, h1, h2, h3⟩ := detectGo_spec td (pySortedByDate msgs) [] 0 [] ts h
    rw [List.nil_append] at h1
    subst h1
    rw [List.nil_append] at h2
    refine ⟨h2, ?_, ?_⟩
    · rw [h2]
      exact List.perm_insertionSort msgDateLe msgs
    · rw [h3, List.range_eq_range']

/-- C5 witness: a single well-formed message yields one thread holding
exactly that message, with id 0. -/
theorem c5_witness :
    detectThreads tdDefault c5okInput = .ok [createThreadObject c5okInput 0] ∧
    (([createThreadObject c5okInput 0].map Thread.messages).flatten = pySortedByDate c5okInput ∧
     (([createThreadObject c5okInput 0].map Thread.messages).flatten.Perm c5okInput) ∧
     [createThreadObject c5okInput 0].map Thread.thread_id
       = List.range [createThreadObject c5okInput 0].length) :=
  ⟨by rfl, c5_partition tdDefault c5okInput [createThreadObject c5okInput 0] (by rfl)⟩

/-- C5 counterexample: on a null-text message followed three hours later
(inside the similarity window) by a text message, `detect_threads` raises
`AttributeError` instead of partitioning the input. -/
theorem c5_counterexample : detectThreads tdDefault c5badInput = .error () := rfl

/-! ### Claims about timestamp failure semantics. -/

/-- C8 (amended): a message whose date cannot be parsed (on either side of
the gap computation) makes the gap infinite, which forces a thread break
without raising — the similarity check is never reached on that path.
Segmentation is not, however, total over any input: a null message text
inside the similarity window raises (see the counterexample). -/
theorem c8_malformed_timestamp (td : ThreadDetector) (m : Msg) (thread : List Msg)
    (hne : thread ≠ [])
    (hbad : parseIso m.date = none ∨ parseIso (thread.getLastD default).date = none) :
    calculateTimeGap (thread.getLastD default) m = none ∧
    belongsToThread td m thread = .ok false := by
  have hgap : calculateTimeGap (thread.getLastD default) m = none := by
    rw [calculateTimeGap]
    rcases h1 : parseIso (thread.getLastD default).date with _ | a
    · rfl
    · rcases h2 : parseIso m.date with _ | b
      · rfl
      · rcases hbad with hb | hb
        · rw [hb] at h2; cases h2
        · rw [hb] at h1; cases h1
  refine ⟨hgap, ?_⟩
  rw [belongsToThread, if_neg (notEmpty_isEmpty_false thread hne), hgap]
  rfl

/-- C8 witness: a buffered message with the unparsable date `"garbled"`
forces an infinite gap and a thread break, without an exception. -/
theorem c8_witness :
    calculateTimeGap (c8buf.getLastD default) c8msg = none ∧
    belongsToThread tdDefault c8msg c8buf = .ok false :=
  c8_malformed_timestamp tdDefault c8msg c8buf (by decide) (Or.inr (by rfl))

/-- C8 counterexample: both timestamps are well-formed, yet segmentation
aborts — a null text on the buffered message raises inside the similarity
check, refuting "segmentation never raises an exception or aborts the
batch". -/
theorem c8_counterexample : detectThreads tdDefault c8badInput = .error () := rfl

/-! ### Claims about `find_related_threads`. -/

theorem frInner_spec (threads : List Thread) (maxDays : ℤ) (anchor : Thread) :
    ∀ (js group processed g p : List ℕ),
      frInner threads maxDays anchor js group processed = .ok (g, p) →
      ∀ x ∈ g, x ∈ group ∨ x ∈ js := by
  intro js
  induction js with
  | nil =>
    intro group processed g p h x hx
    rw [frInner] at h
    injection h with h
    rw [show g = group by rw [← (Prod.mk.injEq _ _ _ _).mp h |>.1]] at hx
    exact Or.inl hx
  | cons j js ih =>
    intro group processed g p h x hx
    rw [frInner] at h
    by_cases hj : j ∈ processed
    · rw [if_pos hj] at h
      rcases ih group processed g p h x hx with h2 | h2
      · exact Or.inl h2
      · exact Or.inr (List.mem_cons_of_mem _ h2)
    · rw [if_neg hj] at h
      split at h
      · cases h
      · rcases ih (group ++ [j]) (processed ++ [j]) g p h x hx with h2 | h2
        · rcases List.mem_append.mp h2 with h3 | h3
          · exact Or.inl h3
          · rw [List.mem_singleton] at h3
            rw [h3]
            exact Or.inr (List.mem_cons_self _ _)
        · exact Or.inr (List.mem_cons_of_mem _ h2)
      · rcases ih group processed g p h x hx with h2 | h2
        · exact Or.inl h2
        · exact Or.inr (List.mem_cons_of_mem _ h2)

theorem frOuter_spec (threads : List Thread) (maxDays : ℤ) :
    ∀ (idxs processed : List ℕ) (acc gs : List (List ℕ)),
      (∀ i ∈ idxs, i < threads.length) →
      (∀ g ∈ acc, (∀ x ∈ g, x < threads.length) ∧ 2 ≤ g.length) →
      frOuter threads maxDays idxs processed acc = .ok gs →
      ∀ g ∈ gs, (∀ x ∈ g, x < threads.length) ∧ 2 ≤ g.length := by
  intro idxs
  induction idxs with
  | nil =>
    intro processed acc gs _ hacc h
    rw [frOuter] at h
    injection h with h
    rw [← h]
    exact hacc
  | cons i rest ih =>
    intro processed acc gs hidx hacc h
    rw [frOuter] at h
    by_cases hi : i ∈ processed
    · rw [if_pos hi] at h
      exact ih processed acc gs (fun x hx => hidx x (List.mem_cons_of_mem _ hx)) hacc h
    · rw [if_neg hi] at h
      split at h
      · cases h
      · rename_i r heq
        have hgroup : ∀ x ∈ r.1, x < threads.length := by
          intro x hx
          rcases frInner_spec threads maxDays (threads.getD i default) _ _ _ _ _ heq x hx with h2 | h2
          · rw [List.mem_singleton] at h2
            rw [h2]
            exact hidx i (List.mem_cons_self _ _)
          · have h3 := List.mem_range'_1.mp h2
            have h4 : i < threads.length := hidx i (List.mem_cons_self _ _)
            omega
        split at h
        · rename_i hlen
          refine ih r.2 (acc ++ [r.1]) gs (fun x hx => hidx x (List.mem_cons_of_mem _ hx)) ?_ h
          intro g hg
          rcases List.mem_append.mp hg with h2 | h2
          · exact hacc g h2
          · rw [List.mem_singleton] at h2
            rw [h2]
            exact ⟨hgroup, by omega⟩
        · exact ih r.2 acc gs (fun x hx => hidx x (List.mem_cons_of_mem _ hx)) hacc h

/-- C9: every group that `find_related_threads` returns references only
thread indices in range, and has at least 2 members (the source appends a
group only when its length exceeds 1, and its members come from the
anchor index and the in-range candidate indices). -/
theorem c9_related_groups (threads : List Thread) (maxDays : ℤ) (gs : List (List ℕ))
    (h : findRelatedThreads threads maxDays = .ok gs) :
    ∀ g ∈ gs, (∀ x ∈ g, x < threads.length) ∧ 2 ≤ g.length :=
  frOuter_spec threads maxDays (List.range threads.length) [] [] gs
    (fun _ hi => List.mem_range.mp hi) (fun g hg => absurd hg (List.not_mem_nil g)) h

/-- C9 witness: two related threads produce the single group `[0, 1]`,
whose members are in range and whose size is 2. -/
theorem c9_witness :
    findRelatedThreads c9threads 7 = .ok [[0, 1]] ∧
    (0 : ℕ) < c9threads.length ∧ 2 ≤ ([0, 1] : List ℕ).length :=
  ⟨by rfl,
   (c9_related_groups c9threads 7 [[0, 1]] (by rfl) [0, 1] (by simp)).1 0 (by simp),
   (c9_related_groups c9threads 7 [[0, 1]] (by rfl) [0, 1] (by simp)).2⟩

/-! ### Claims about `search_messages`. -/

/-- C1 (code-bug demonstration): a store holding one semantically empty
row (null text, no attachment).  With no filters, the page query returns
the row — its `WHERE` clause has no eligibility predicate — while the
count query's `WHERE` clause excludes it, so `total_count` is 0 although
one message is returned: the two queries do not apply an identical
predicate set and the page-size/total-count identity fails (the repo's own
test `tests/integration/test_message_search.py` asserts
`len(page1.messages) == min(page_size, page1.total_count)`). -/
theorem c1_lockstep_mismatch :
    (searchMessages envTriv [rowNullText] {}).messages.length = 1 ∧
    (searchMessages envTriv [rowNullText] {}).total_count = 0 := ⟨rfl, rfl⟩

/-- C2 (code-bug demonstration): the returned page contains a message with
null text and no attachment — the claimed invariant that such rows appear
in no query result is enforced only by the count query, not by the page
query. -/
theorem c2_empty_row_in_page :
    (searchMessages envTriv [rowNullTextSms] {}).messages.map
      (fun fm => (fm.text, fm.has_attachment)) = [(none, false)] ∧
    (searchMessages envTriv [rowNullTextSms] {}).total_count = 0 := ⟨rfl, rfl⟩

theorem searchMessages_pred_congr (env : SqlEnv) (store : List Row) (a b : SearchArgs)
    (hpage : pageRowPred env a = pageRowPred env b)
    (hcount : countRowPred env a = countRowPred env b)
    (hp : a.page = b.page) (hps : a.page_size = b.page_size) :
    searchMessages env store a = searchMessages env store b := by
  rw [searchMessages, searchMessages, hpage, hcount, hp, hps]

theorem servicesPred_filter (l : List String) :
    servicesPred (some l) =
      servicesPred (some (l.filter fun s => decide (s ∈ msgServiceAll))) := by
  funext r
  rw [servicesPred, servicesPred]
  by_cases hl : l.isEmpty = true
  · rw [List.isEmpty_iff.mp hl]
    simp
  · rw [if_neg hl]
    by_cases hlf : (l.filter fun s => decide (s ∈ msgServiceAll)).isEmpty = true
    · rw [if_pos hlf, if_pos hlf]
    · rw [List.filter_filter]
      simp only [Bool.and_self]
      rw [if_neg hlf, if_neg hlf]

theorem servicesPred_empty (l : List String)
    (h : (l.filter fun s => decide (s ∈ msgServiceAll)) = []) :
    servicesPred (some l) = servicesPred none := by
  funext r
  rw [servicesPred, servicesPred]
  by_cases hl : l.isEmpty = true
  · rw [if_pos hl]
  · rw [if_neg hl, if_pos (List.isEmpty_iff.mpr h)]

theorem typesPred_filter (l : List String) :
    typesPred (some l) =
      typesPred (some (l.filter fun t => decide (t ∈ msgTypeAll))) := by
  funext r
  rw [typesPred, typesPred]
  by_cases hl : l.isEmpty = true
  · rw [List.isEmpty_iff.mp hl]
    simp
  · rw [if_neg hl]
    by_cases hlf : (l.filter fun t => decide (t ∈ msgTypeAll)).isEmpty = true
    · rw [if_pos hlf]
      rw [List.isEmpty_iff.mp hlf]
      simp
    · rw [if_neg hlf]
      rw [List.filter_filter]
      simp only [Bool.and_self]

theorem typesPred_empty (l : List String)
    (h : (l.filter fun t => decide (t ∈ msgTypeAll)) = []) :
    typesPred (some l) = typesPred none := by
  funext r
  rw [typesPred, typesPred]
  by_cases hl : l.isEmpty = true
  · rw [if_pos hl]
  · rw [if_neg hl, h]
    simp

theorem pageRowPred_services (env : SqlEnv) (a : SearchArgs) (X Y : Option (List String))
    (h : servicesPred X = servicesPred Y) :
    pageRowPred env { a with services := X } = pageRowPred env { a with services := Y } := by
  funext r
  rw [pageRowPred, pageRowPred]
  dsimp only
  rw [h]

theorem countRowPred_services (env : SqlEnv) (a : SearchArgs) (X Y : Option (List String))
    (h : servicesPred X = servicesPred Y) :
    countRowPred env { a with services := X } = countRowPred env { a with services := Y } := by
  funext r
  rw [countRowPred, countRowPred]
  dsimp only
  rw [h]

theorem pageRowPred_types (env : SqlEnv) (a : SearchArgs) (X Y : Option (List String))
    (h : typesPred X = typesPred Y) :
    pageRowPred env { a with message_types := X }
      = pageRowPred env { a with message_types := Y } := by
  funext r
  rw [pageRowPred, pageRowPred]
  dsimp only
  rw [h]

theorem countRowPred_types (env : SqlEnv) (a : SearchArgs) (X Y : Option (List String))
    (h : typesPred X = typesPred Y) :
    countRowPred env { a with message_types := X }
      = countRowPred env { a with message_types := Y } := by
  funext r
  rw [countRowPred, countRowPred]
  dsimp only
  rw [h]

/-- C7: unrecognized `services` or `message_types` values are silently
dropped — for every store, environment and combination of the other
filters, searching with a list equals searching with the unrecognized
values removed, and a list that filters down to empty imposes no
constraint (same as unset).  In particular `services=["iMessage","bogus"]`
behaves identically to `services=["iMessage"]`, and no unrecognized value
causes an error (the embedding is a total function). -/
theorem c7_invalid_enums_dropped (env : SqlEnv) (store : List Row) (a : SearchArgs)
    (l : List String) :
    (searchMessages env store { a with services := some l } =
      searchMessages env store
        { a with services := some (l.filter fun s => decide (s ∈ msgServiceAll)) }) ∧
    (searchMessages env store { a with message_types := some l } =
      searchMessages env store
        { a with message_types := some (l.filter fun t => decide (t ∈ msgTypeAll)) }) ∧
    ((l.filter fun s => decide (s ∈ msgServiceAll)) = [] →
      searchMessages env store { a with services := some l } =
        searchMessages env store { a with services := none }) ∧
    ((l.filter fun t => decide (t ∈ msgTypeAll)) = [] →
      searchMessages env store { a with message_types := some l } =
        searchMessages env store { a with message_types := none }) := by
  refine ⟨?_, ?_, ?_, ?_⟩
  · exact searchMessages_pred_congr env store _ _
      (pageRowPred_services env a _ _ (servicesPred_filter l))
      (countRowPred_services env a _ _ (servicesPred_filter l)) rfl rfl
  · exact searchMessages_pred_congr env store _ _
      (pageRowPred_types env a _ _ (typesPred_filter l))
      (countRowPred_types env a _ _ (typesPred_filter l)) rfl rfl
  · intro h
    exact searchMessages_pred_congr env store _ _
      (pageRowPred_services env a _ _ (servicesPred_empty l h))
      (countRowPred_services env a _ _ (servicesPred_empty l h)) rfl rfl
  · intro h
    exact searchMessages_pred_congr env store _ _
      (pageRowPred_types env a _ _ (typesPred_empty l h))
      (countRowPred_types env a _ _ (typesPred_empty l h)) rfl rfl

/-- C7 witness: on a one-row iMessage store, `services=["iMessage","bogus"]`
produces the same `SearchResult` as after dropping the unrecognized value,
and the dropped-to-empty list `["bogus"]` behaves as unset. -/
theorem c7_witness :
    (searchMessages envTriv [rowNullText] { services := some ["iMessage", "bogus"] } =
      searchMessages envTriv [rowNullText]
        { services := some (["iMessage", "bogus"].filter fun s => decide (s ∈ msgServiceAll)) }) ∧
    (searchMessages envTriv [rowNullText] { services := some ["bogus"] } =
      searchMessages envTriv [rowNullText] { services := none }) :=
  ⟨(c7_invalid_enums_dropped envTriv [rowNullText] {} ["iMessage", "bogus"]).1,
   (c7_invalid_enums_dropped envTriv [rowNullText] {} ["bogus"]).2.2.1 (by rfl)⟩
